import Mathlib

/- Shallow embedding of the Sudoku engine (SudokuEngine) and the game
   session manager (GameManager) of the sudoku-game-mvp repository.

   Grids are 9x9 matrices of cells; a cell is a number 1..9 or empty
   (JS null), modelled as Option Nat.  JS arrays become Lists; in-place
   mutation becomes functional update (List.set); out-of-range JS array
   reads yield undefined, modelled where it matters (GameManager.makeMove
   indexes with caller-supplied positions) by Option-valued lookup, and a
   JS TypeError (indexing into undefined) by Except.error. -/

abbrev Cell : Type := Option Nat

abbrev Grid : Type := List (List Cell)

/-- Reads grid[r][c]; out-of-range reads default to empty.  Engine loops
only read in-range positions of well-formed grids, where this agrees with
the JS semantics. -/
def cellAt (g : Grid) (r c : Nat) : Cell :=
  ((g.getD r []).getD c none)

/-- Writes grid[r][c] = v (functional counterpart of the JS assignment). -/
def setCell (g : Grid) (r c : Nat) (v : Cell) : Grid :=
  g.set r ((g.getD r []).set c v)

/-- The grid is a 9x9 matrix. -/
def WFshape (g : Grid) : Prop :=
  g.length = 9 ∧ ∀ row ∈ g, row.length = 9

/-- A cell is empty or holds a value 1..9 (the TS type
CellValue = 1 | ... | 9 | null). -/
def CellOK : Cell → Prop
  | none => True
  | some v => 1 ≤ v ∧ v ≤ 9

instance : DecidablePred CellOK := fun x => by
  cases x <;> unfold CellOK <;> infer_instance

/-- The grid is a 9x9 matrix of CellValue entries. -/
def WF (g : Grid) : Prop :=
  WFshape g ∧ ∀ row ∈ g, ∀ x ∈ row, CellOK x

instance : DecidablePred WFshape := fun g => by
  unfold WFshape; infer_instance

instance : DecidablePred WF := fun g => by
  unfold WF; infer_instance

/-- SudokuEngine.isValidMove: a placement is valid when the value is empty,
or when no other cell of the same row, column or 3x3 box already holds it.
Direct translation of the three scan loops. -/
def isValidMove (g : Grid) (row col : Nat) (num : Cell) : Bool :=
  match num with
  | none => true
  | some _ =>
    if (List.range 9).any (fun c => decide (c ≠ col) && decide (cellAt g row c = num)) then
      false
    else if (List.range 9).any (fun r => decide (r ≠ row) && decide (cellAt g r col = num)) then
      false
    else
      let boxStartRow := row / 3 * 3
      let boxStartCol := col / 3 * 3
      if (List.range 3).any (fun i => (List.range 3).any (fun j =>
          decide (boxStartRow + i ≠ row ∨ boxStartCol + j ≠ col) &&
          decide (cellAt g (boxStartRow + i) (boxStartCol + j) = num))) then
        false
      else
        true

/-- All 81 positions in row-major order (the iteration order of the
engine's double loops). -/
def allPositions : List (Nat × Nat) :=
  (List.range 9).flatMap (fun r => (List.range 9).map (fun c => (r, c)))

/-- The spec-level notion of two positions sharing a row, a column or a
3x3 box. -/
def SameUnit (r c r' c' : Nat) : Prop :=
  r = r' ∨ c = c' ∨ (r / 3 = r' / 3 ∧ c / 3 = c' / 3)

instance (r c r' c' : Nat) : Decidable (SameUnit r c r' c') := by
  unfold SameUnit; infer_instance

/-- SudokuEngine.validateGrid result record. -/
structure ValidationResult where
  isValid : Bool
  conflicts : List (Nat × Nat)
  isCompleted : Bool
deriving DecidableEq

/-- SudokuEngine.validateGrid: scans all 81 cells in row-major order,
collecting the non-empty cells that fail the placement re-check; validity
means no conflicts, completion additionally that all 81 cells are filled. -/
def validateGrid (g : Grid) : ValidationResult :=
  let conflicts := allPositions.filter
    (fun p => decide (cellAt g p.1 p.2 ≠ none) && !(isValidMove g p.1 p.2 (cellAt g p.1 p.2)))
  let filledCells := (allPositions.filter (fun p => decide (cellAt g p.1 p.2 ≠ none))).length
  { isValid := decide (conflicts.length = 0)
    conflicts := conflicts
    isCompleted := decide (conflicts.length = 0) && decide (filledCells = 81) }

/-- Empty in-range positions in row-major scan order. -/
def emptyPositions (g : Grid) : List (Nat × Nat) :=
  allPositions.filter (fun p => decide (cellAt g p.1 p.2 = none))

/-- Number of empty in-range cells. -/
def numEmpty (g : Grid) : Nat := (emptyPositions g).length

/-- First empty cell in row-major order: the double-loop scan at the top of
solveRecursive (and findAllSolutions). -/
def firstEmpty (g : Grid) : Option (Nat × Nat) := (emptyPositions g).head?

/-- The terminal copy loop of solveRecursive: writes every in-range cell of
the working grid into the result grid. -/
def overwrite (w r : Grid) : Grid :=
  allPositions.foldl (fun acc p => setCell acc p.1 p.2 (cellAt w p.1 p.2)) r

/-- SudokuEngine.solveRecursive, with the result grid threaded explicitly
(the source mutates resultGrid in place) and a fuel argument standing in
for the terminating recursion; fuel larger than the number of empty cells
never runs out.  solveTry is the candidate loop over nums 1..9: on inner
success it writes the candidate into the result grid and propagates true;
on failure it restores the working cell (implicit here: the pure working
grid is reused) and tries the next candidate. -/
def solveTry (solveRec : Grid → Grid → Bool × Grid)
    (working result : Grid) (row col : Nat) : List Nat → Bool × Grid
  | [] => (false, result)
  | num :: rest =>
    if isValidMove working row col (some num) then
      match solveRec (setCell working row col (some num)) result with
      | (true, res) => (true, setCell res row col (some num))
      | (false, res) => solveTry solveRec working res row col rest
    else
      solveTry solveRec working result row col rest

def solveRecursive : Nat → Grid → Grid → Bool × Grid
  | 0, _working, result => (false, result)
  | fuel + 1, working, result =>
    match firstEmpty working with
    | none => (true, overwrite working result)
    | some (row, col) =>
      solveTry (solveRecursive fuel) working result row col [1, 2, 3, 4, 5, 6, 7, 8, 9]

/-- SudokuEngine.solvePuzzle: clones the grid into a working copy and runs
the recursive search, mutating the input grid (here: returning the result
grid) only on the success path.  81 empty cells at most, so fuel 82
suffices. -/
def solvePuzzle (g : Grid) : Bool × Grid :=
  solveRecursive 82 g g

/-- Spec-level validity of a filled grid: 9x9, every cell holds 1..9, and
no two distinct cells of a row, column or box agree. -/
def ValidFull (s : Grid) : Prop :=
  WFshape s ∧
  (∀ i j, i < 9 → j < 9 → ∃ v, 1 ≤ v ∧ v ≤ 9 ∧ cellAt s i j = some v) ∧
  (∀ i j i' j', i < 9 → j < 9 → i' < 9 → j' < 9 → ¬(i = i' ∧ j = j') →
    SameUnit i j i' j' → cellAt s i j ≠ cellAt s i' j')

/-- s agrees with g on every filled cell of g. -/
def ExtendsG (g s : Grid) : Prop :=
  ∀ i j, i < 9 → j < 9 → cellAt g i j ≠ none → cellAt s i j = cellAt g i j

/-- A completion of g: a fully filled, constraint-satisfying grid that
agrees with g on all of g's filled cells. -/
def Completion (g s : Grid) : Prop := ValidFull s ∧ ExtendsG g s

/-- Every filled cell of g passes the placement re-check: the grid has no
conflicts (what validateGrid's empty conflict list expresses). -/
def ConsistentG (g : Grid) : Prop :=
  ∀ r < 9, ∀ c < 9, cellAt g r c ≠ none → isValidMove g r c (cellAt g r c) = true

instance : DecidablePred ConsistentG := fun g => by
  unfold ConsistentG; infer_instance

/- ---------------------------------------------------------------- -/
/- Game manager (GameManager.ts)                                     -/
/- ---------------------------------------------------------------- -/

inductive GameState where
  | menu
  | playing
  | paused
  | completed
deriving DecidableEq

/-- A recorded move: position (as the caller-supplied JS numbers),
previous cell value, new value, timestamp. -/
structure Move where
  row : Int
  col : Int
  previousValue : Cell
  newValue : Cell
  timestamp : Nat
deriving DecidableEq

/-- GameData (types/game.ts) restricted to the machine-relevant fields. -/
structure GameData where
  grid : Grid
  solution : Grid
  originalGrid : Grid
  moveHistory : List Move
  isCompleted : Bool
  timeElapsed : Nat
deriving DecidableEq

/-- GameManager's private mutable fields. -/
structure ManagerState where
  gameData : Option GameData
  gameState : GameState
  startTime : Nat
  pausedTime : Nat
  timerRunning : Bool
deriving DecidableEq

/-- JS array read l[i]: undefined (none) when i is out of range, including
negative indices. -/
def jsIndex (l : List α) (i : Int) : Option α :=
  if i < 0 then none else l.get? i.toNat

/-- The JS test x !== null on an array read: undefined !== null is true. -/
def jsCellIsNonNull : Option Cell → Bool
  | none => true
  | some none => false
  | some (some _) => true

/-- In-place JS write grid[row][col] = v for caller-supplied indices; the
success path of makeMove only reaches it with both indices in range. -/
def setCellI (g : Grid) (row col : Int) (v : Cell) : Grid :=
  if 0 ≤ row ∧ 0 ≤ col then setCell g row.toNat col.toNat v else g

/-- GameManager.getCurrentTimeElapsed. -/
def elapsedTime (s : ManagerState) (now : Nat) : Nat :=
  if s.startTime = 0 then 0 else (now - s.startTime) / 1000

/-- GameManager.completeGame: marks the game data completed, freezes the
elapsed time, transitions to completed and stops the timer. -/
def completeGame (s : ManagerState) (gd : GameData) (now : Nat) : ManagerState :=
  { s with
    gameData := some { gd with isCompleted := true, timeElapsed := elapsedTime s now }
    gameState := GameState.completed
    timerRunning := false }

/-- GameManager.makeMove.  Except.error models the JS TypeError thrown when
an out-of-range row makes originalGrid[row] (or grid[row]) undefined and
the subsequent [col] read faults; Except.ok carries the next state and the
boolean result. -/
def makeMove (s : ManagerState) (row col : Int) (value : Cell) (now : Nat) :
    Except Unit (ManagerState × Bool) :=
  match s.gameData with
  | none => Except.ok (s, false)
  | some gd =>
    if s.gameState ≠ GameState.playing then Except.ok (s, false)
    else
      match jsIndex gd.originalGrid row with
      | none => Except.error ()
      | some origRow =>
        if jsCellIsNonNull (jsIndex origRow col) then Except.ok (s, false)
        else
          match jsIndex gd.grid row with
          | none => Except.error ()
          | some gridRow =>
            let previousValue : Cell := (jsIndex gridRow col).getD none
            let mv : Move := ⟨row, col, previousValue, value, now⟩
            let gd1 : GameData := { gd with
              grid := setCellI gd.grid row col value
              moveHistory := gd.moveHistory ++ [mv] }
            let s1 : ManagerState := { s with gameData := some gd1 }
            if (validateGrid gd1.grid).isCompleted then
              Except.ok (completeGame s1 gd1 now, true)
            else
              Except.ok (s1, true)

/-- GameManager.undoMove: fails iff there is no session or no history;
otherwise pops the last move and writes its previous value back. -/
def undoMove (s : ManagerState) : ManagerState × Bool :=
  match s.gameData with
  | none => (s, false)
  | some gd =>
    match gd.moveHistory.getLast? with
    | none => (s, false)
    | some mv =>
      let gd1 : GameData := { gd with
        grid := setCellI gd.grid mv.row mv.col mv.previousValue
        moveHistory := gd.moveHistory.dropLast }
      ({ s with gameData := some gd1 }, true)

/-- GameManager.pauseGame. -/
def pauseGame (s : ManagerState) (now : Nat) : ManagerState :=
  if s.gameState = GameState.playing then
    { s with gameState := GameState.paused, pausedTime := now, timerRunning := false }
  else s

/-- GameManager.resumeGame. -/
def resumeGame (s : ManagerState) (now : Nat) : ManagerState :=
  if s.gameState = GameState.paused then
    let s1 := { s with gameState := GameState.playing }
    let s2 :=
      if 0 < s1.pausedTime then
        { s1 with startTime := s1.startTime + (now - s1.pausedTime), pausedTime := 0 }
      else s1
    { s2 with timerRunning := true }
  else s

/-- SudokuEngine.getHint: returns a random empty cell of the grid, none if
there is no empty cell; the random index is injected as pick. -/
def getHintE (g : Grid) (pick : Nat) : Option (Nat × Nat) :=
  let emptyCells := emptyPositions g
  if emptyCells.length = 0 then none
  else emptyCells.get? (pick % emptyCells.length)

/-- GameManager.getHint: reads the session state, never writes it. -/
def getHintM (s : ManagerState) (pick : Nat) : Option (Nat × Nat) :=
  match s.gameData with
  | none => none
  | some gd => getHintE gd.grid pick

/-- GameManager.validateGame: reads the session state, never writes it. -/
def validateGame (s : ManagerState) : ValidationResult :=
  match s.gameData with
  | none => { isValid := false, conflicts := [], isCompleted := false }
  | some gd => validateGrid gd.grid

/-- GameManager.dispose: stops the timer, clears the session, back to menu. -/
def dispose (s : ManagerState) : ManagerState :=
  { s with gameData := none, gameState := GameState.menu, timerRunning := false }

/-- One observable session operation after creation (the operations named
by the spec's immutability invariant); getHint and validateGame read the
state without writing it, so they appear as identity steps. -/
inductive SessionStep : ManagerState → ManagerState → Prop where
  | move (s : ManagerState) (row col : Int) (value : Cell) (now : Nat)
      (s' : ManagerState) (b : Bool)
      (h : makeMove s row col value now = Except.ok (s', b)) : SessionStep s s'
  | undo (s : ManagerState) : SessionStep s (undoMove s).1
  | pause (s : ManagerState) (now : Nat) : SessionStep s (pauseGame s now)
  | resume (s : ManagerState) (now : Nat) : SessionStep s (resumeGame s now)
  | hint (s : ManagerState) (pick : Nat) : SessionStep s s
  | validate (s : ManagerState) : SessionStep s s

/-- Any finite sequence of session operations. -/
inductive SessionReach : ManagerState → ManagerState → Prop where
  | refl (s : ManagerState) : SessionReach s s
  | tail {s t u : ManagerState} : SessionReach s t → SessionStep t u → SessionReach s u

/-- The original grid of a session, when one exists. -/
def originalGridOf (s : ManagerState) : Option Grid :=
  s.gameData.map GameData.originalGrid

/- ---------------------------------------------------------------- -/
/- Concrete data for counterexamples and witnesses                   -/
/- ---------------------------------------------------------------- -/

/-- A complete valid solution grid (cyclic construction). -/
def S9 : Grid :=
  (List.range 9).map (fun r =>
    (List.range 9).map (fun c => some ((3 * r + r / 3 + c) % 9 + 1)))

/-- S9 with its last cell cleared: a consistent, nearly full puzzle. -/
def gridNearFull : Grid := setCell S9 8 8 none

/-- A full grid violating every unit constraint. -/
def allOnes : Grid := List.replicate 9 (List.replicate 9 (some 1))

/-- A fully empty 9x9 grid. -/
def emptyGrid9 : Grid := List.replicate 9 (List.replicate 9 none)

/-- Concrete grid with a row conflict: 5 at (0,0) and (0,3). -/
def gridRowDup : Grid :=
  setCell (setCell emptyGrid9 0 0 (some 5)) 0 3 (some 5)

/-- Grid with a single given cell at (0,0). -/
def gridOneGiven : Grid := setCell emptyGrid9 0 0 (some 5)

/-- A session with one given cell, in the playing state. -/
def gd0 : GameData :=
  { grid := gridOneGiven
    solution := S9
    originalGrid := gridOneGiven
    moveHistory := []
    isCompleted := false
    timeElapsed := 0 }

def msPlay : ManagerState :=
  { gameData := some gd0
    gameState := GameState.playing
    startTime := 1
    pausedTime := 0
    timerRunning := true }

/-- The move the sample session records for makeMove(1, 1, 3) at time 5. -/
def mvSample : Move := ⟨1, 1, none, some 3, 5⟩

def gd1after : GameData :=
  { gd0 with
    grid := setCellI gridOneGiven 1 1 (some 3)
    moveHistory := [mvSample] }

def msAfter : ManagerState := { msPlay with gameData := some gd1after }

/-- A paused session with one recorded move, for exercising undo. -/
def msPausedHist : ManagerState :=
  { gameData := some gd1after
    gameState := GameState.paused
    startTime := 1
    pausedTime := 7
    timerRunning := false }

/-- An idle manager with no session. -/
def msMenu : ManagerState :=
  { gameData := none
    gameState := GameState.menu
    startTime := 0
    pausedTime := 0
    timerRunning := false }

/- ---------------------------------------------------------------- -/
/- Theorems                                                          -/
/- ---------------------------------------------------------------- -/

theorem cellAt_setCell_self (g : Grid) (r c : Nat) (v : Cell)
    (hr : r < g.length) (hc : c < (g.getD r []).length) :
    cellAt (setCell g r c v) r c = v := by
  unfold cellAt setCell
  simp only [List.getD_eq_getElem?_getD]
  rw [List.getElem?_set_self hr]
  simp only [Option.getD_some]
  rw [List.getElem?_set_self (by simpa using hc)]
  rfl

theorem cellAt_setCell_other (g : Grid) (r c : Nat) (v : Cell)
    (r' c' : Nat) (h : ¬(r' = r ∧ c' = c)) :
    cellAt (setCell g r c v) r' c' = cellAt g r' c' := by
  unfold cellAt setCell
  simp only [List.getD_eq_getElem?_getD]
  by_cases hr : r' = r
  · subst hr
    have hc : c' ≠ c := fun hcc => h ⟨rfl, hcc⟩
    rw [List.getElem?_set]
    rw [if_pos rfl]
    by_cases hlen : r' < g.length
    · rw [if_pos hlen]
      simp only [Option.getD_some]
      rw [List.getElem?_set_ne (Ne.symm hc)]
    · rw [if_neg hlen, List.getElem?_eq_none (Nat.le_of_not_lt hlen)]
  · rw [List.getElem?_set_ne (Ne.symm hr)]

theorem mem_allPositions (p : Nat × Nat) :
    p ∈ allPositions ↔ p.1 < 9 ∧ p.2 < 9 := by
  rcases p with ⟨r, c⟩
  simp [allPositions, List.mem_flatMap, List.mem_map, List.mem_range]

theorem nodup_allPositions : allPositions.Nodup := by decide

theorem length_allPositions : allPositions.length = 81 := by decide

theorem wf_row_length (g : Grid) (hg : WFshape g) (r : Nat) (hr : r < 9) :
    (g.getD r []).length = 9 := by
  obtain ⟨h9, hrows⟩ := hg
  have hlen : r < g.length := by omega
  rw [List.getD_eq_getElem?_getD, List.getElem?_eq_getElem hlen]
  exact hrows _ (List.getElem_mem hlen)

theorem WFshape_setCell (g : Grid) (r c : Nat) (v : Cell)
    (hg : WFshape g) (hr : r < 9) :
    WFshape (setCell g r c v) := by
  obtain ⟨hlen, hrows⟩ := hg
  refine ⟨by simpa [setCell] using hlen, ?_⟩
  intro row hrow
  rcases List.mem_or_eq_of_mem_set hrow with hmem | heq
  · exact hrows row hmem
  · rw [heq, List.length_set]
    exact wf_row_length g ⟨hlen, hrows⟩ r hr

theorem cellOK_cellAt (g : Grid) (hg : WF g) (r c : Nat) :
    CellOK (cellAt g r c) := by
  by_cases hr : r < g.length
  · by_cases hc : c < (g[r]).length
    · have h1 : cellAt g r c = (g[r])[c] := by
        unfold cellAt
        simp only [List.getD_eq_getElem?_getD]
        rw [List.getElem?_eq_getElem hr]
        simp only [Option.getD_some]
        rw [List.getElem?_eq_getElem hc]
        rfl
      rw [h1]
      exact hg.2 _ (List.getElem_mem hr) _ (List.getElem_mem hc)
    · have h1 : cellAt g r c = none := by
        unfold cellAt
        simp only [List.getD_eq_getElem?_getD]
        rw [List.getElem?_eq_getElem hr]
        simp only [Option.getD_some]
        rw [List.getElem?_eq_none (Nat.le_of_not_lt hc)]
        rfl
      rw [h1]
      trivial
  · have h1 : cellAt g r c = none := by
      unfold cellAt
      simp only [List.getD_eq_getElem?_getD]
      rw [List.getElem?_eq_none (Nat.le_of_not_lt hr)]
      rfl
    rw [h1]
    trivial

theorem WF_setCell (g : Grid) (r c : Nat) (v : Cell)
    (hg : WF g) (hr : r < 9) (hv : CellOK v) :
    WF (setCell g r c v) := by
  refine ⟨WFshape_setCell g r c v hg.1 hr, ?_⟩
  intro row hrow x hx
  rcases List.mem_or_eq_of_mem_set hrow with hmem | heq
  · exact hg.2 row hmem x hx
  · rw [heq] at hx
    rcases List.mem_or_eq_of_mem_set hx with hmem2 | heq2
    · have hmemrow : g.getD r [] ∈ g := by
        have hlen : r < g.length := by
          have := hg.1.1; omega
        rw [List.getD_eq_getElem?_getD, List.getElem?_eq_getElem hlen]
        exact List.getElem_mem hlen
      exact hg.2 _ hmemrow x hmem2
    · rw [heq2]; exact hv

theorem WF_of_cells (g : Grid) (hg : WFshape g)
    (h : ∀ i < 9, ∀ j < 9, CellOK (cellAt g i j)) : WF g := by
  refine ⟨hg, ?_⟩
  intro row hrow x hx
  obtain ⟨i, hi, hrow_eq⟩ := List.mem_iff_getElem.mp hrow
  obtain ⟨j, hj, hx_eq⟩ := List.mem_iff_getElem.mp hx
  have hi9 : i < 9 := by have := hg.1; omega
  have hj9 : j < 9 := by
    have := hg.2 row hrow; omega
  have : cellAt g i j = x := by
    unfold cellAt
    simp only [List.getD_eq_getElem?_getD]
    rw [List.getElem?_eq_getElem hi]
    simp only [Option.getD_some]
    rw [hrow_eq, List.getElem?_eq_getElem hj]
    simp only [Option.getD_some]
    exact hx_eq
  rw [← this]
  exact h i hi9 j hj9

theorem firstEmpty_eq_none_iff (g : Grid) :
    firstEmpty g = none ↔ ∀ r < 9, ∀ c < 9, cellAt g r c ≠ none := by
  unfold firstEmpty emptyPositions
  rw [List.head?_eq_none_iff, List.filter_eq_nil_iff]
  constructor
  · intro h r hr c hc hcell
    exact absurd (by simpa using hcell)
      (by simpa using h (r, c) (by rw [mem_allPositions]; exact ⟨hr, hc⟩))
  · intro h p hp
    rw [mem_allPositions] at hp
    simpa using h p.1 hp.1 p.2 hp.2

theorem firstEmpty_some (g : Grid) (r c : Nat)
    (h : firstEmpty g = some (r, c)) :
    r < 9 ∧ c < 9 ∧ cellAt g r c = none := by
  unfold firstEmpty emptyPositions at h
  have hmem : (r, c) ∈ allPositions.filter
      (fun p => decide (cellAt g p.1 p.2 = none)) := by
    rcases hl : allPositions.filter (fun p => decide (cellAt g p.1 p.2 = none)) with _ | ⟨a, tl⟩
    · rw [hl] at h; simp at h
    · rw [hl] at h
      simp only [List.head?_cons, Option.some.injEq] at h
      rw [hl, ← h]
      exact List.mem_cons_self a tl
  rw [List.mem_filter, mem_allPositions] at hmem
  exact ⟨hmem.1.1, hmem.1.2, by simpa using hmem.2⟩

theorem numEmpty_le (g : Grid) : numEmpty g ≤ 81 := by
  unfold numEmpty emptyPositions
  calc (allPositions.filter _).length ≤ allPositions.length :=
        List.length_filter_le _ _
    _ = 81 := length_allPositions

theorem numEmpty_pos (g : Grid) (r c : Nat)
    (hr : r < 9) (hc : c < 9) (hcell : cellAt g r c = none) :
    0 < numEmpty g := by
  unfold numEmpty emptyPositions
  have : (r, c) ∈ allPositions.filter (fun p => decide (cellAt g p.1 p.2 = none)) := by
    rw [List.mem_filter, mem_allPositions]
    exact ⟨⟨hr, hc⟩, by simpa using hcell⟩
  exact List.length_pos.mpr (List.ne_nil_of_mem this)

theorem filter_length_update {α : Type} (l : List α) (p q : α → Bool) (x : α)
    (hnd : l.Nodup) (hx : x ∈ l)
    (hagree : ∀ y ∈ l, y ≠ x → p y = q y)
    (hpx : p x = true) (hqx : q x = false) :
    (l.filter q).length + 1 = (l.filter p).length := by
  induction l with
  | nil => cases hx
  | cons a tl ih =>
    rw [List.nodup_cons] at hnd
    rcases List.mem_cons.mp hx with heq | hmem
    · have htl : ∀ y ∈ tl, p y = q y := by
        intro y hy
        refine hagree y (List.mem_cons_of_mem _ hy) ?_
        intro hyx
        subst hyx
        rw [heq] at hy
        exact hnd.1 hy
      have hfil : tl.filter p = tl.filter q :=
        List.filter_congr (fun y hy => htl y hy)
      have hpa : p a = true := by rw [← heq]; exact hpx
      have hqa : q a = false := by rw [← heq]; exact hqx
      simp [List.filter_cons, hpa, hqa, hfil]
    · have hax : a ≠ x := fun haa => hnd.1 (haa ▸ hmem)
      have hpa : p a = q a := hagree a (List.mem_cons_self a tl) hax
      have ihh := ih hnd.2 hmem
        (fun y hy hyx => hagree y (List.mem_cons_of_mem a hy) hyx)
      rcases hqa : q a with _ | _
      · rw [List.filter_cons, List.filter_cons, hpa, hqa]
        simpa using ihh
      · rw [List.filter_cons, List.filter_cons, hpa, hqa]
        simp only [if_true, List.length_cons]
        omega

theorem numEmpty_setCell (g : Grid) (r c : Nat) (num : Nat)
    (hg : WFshape g) (hr : r < 9) (hc : c < 9) (hcell : cellAt g r c = none) :
    numEmpty (setCell g r c (some num)) + 1 = numEmpty g := by
  unfold numEmpty emptyPositions
  apply filter_length_update allPositions _ _ (r, c) nodup_allPositions
    (by rw [mem_allPositions]; exact ⟨hr, hc⟩)
  · intro y _ hy
    have : ¬(y.1 = r ∧ y.2 = c) := by
      intro hcon
      exact hy (Prod.ext hcon.1 hcon.2)
    rw [cellAt_setCell_other g r c (some num) y.1 y.2 this]
  · simpa using hcell
  · have hlen : g.length = 9 := hg.1
    have : cellAt (setCell g r c (some num)) r c = some num := by
      apply cellAt_setCell_self
      · omega
      · rw [wf_row_length g hg r hr]; exact hc
    simp [this]

theorem isValidMove_none (g : Grid) (row col : Nat) :
    isValidMove g row col none = true := rfl

/-- Core characterisation of the placement scan: the check fails exactly
when the value occurs at another in-range cell of the same row, column
or box. -/
theorem isValidMove_eq_false_iff (g : Grid) (row col v : Nat)
    (hrow : row < 9) (hcol : col < 9) :
    isValidMove g row col (some v) = false ↔
      ∃ r c, r < 9 ∧ c < 9 ∧ ¬(r = row ∧ c = col) ∧ SameUnit r c row col ∧
        cellAt g r c = some v := by
  unfold isValidMove
  simp only [SameUnit]
  constructor
  · intro h
    by_cases h1 : (List.range 9).any
        (fun c => decide (c ≠ col) && decide (cellAt g row c = some v)) = true
    · rcases List.any_eq_true.mp h1 with ⟨c, hc, hp⟩
      rw [List.mem_range] at hc
      rw [Bool.and_eq_true, decide_eq_true_iff, decide_eq_true_iff] at hp
      exact ⟨row, c, hrow, hc, fun hh => hp.1 hh.2, Or.inl rfl, hp.2⟩
    · rw [if_neg h1] at h
      by_cases h2 : (List.range 9).any
          (fun r => decide (r ≠ row) && decide (cellAt g r col = some v)) = true
      · rcases List.any_eq_true.mp h2 with ⟨r, hr, hp⟩
        rw [List.mem_range] at hr
        rw [Bool.and_eq_true, decide_eq_true_iff, decide_eq_true_iff] at hp
        exact ⟨r, col, hr, hcol, fun hh => hp.1 hh.1, Or.inr (Or.inl rfl), hp.2⟩
      · rw [if_neg h2] at h
        by_cases h3 : (List.range 3).any (fun i => (List.range 3).any (fun j =>
            decide (row / 3 * 3 + i ≠ row ∨ col / 3 * 3 + j ≠ col) &&
            decide (cellAt g (row / 3 * 3 + i) (col / 3 * 3 + j) = some v))) = true
        · rcases List.any_eq_true.mp h3 with ⟨i, hi, hp⟩
          rcases List.any_eq_true.mp hp with ⟨j, hj, hpj⟩
          rw [List.mem_range] at hi hj
          rw [Bool.and_eq_true, decide_eq_true_iff, decide_eq_true_iff] at hpj
          refine ⟨row / 3 * 3 + i, col / 3 * 3 + j, by omega, by omega, ?_, ?_, hpj.2⟩
          · intro hh
            rcases hpj.1 with hne | hne
            · exact hne hh.1
            · exact hne hh.2
          · exact Or.inr (Or.inr ⟨by omega, by omega⟩)
        · rw [if_neg h3] at h
          exact absurd h (by simp)
  · rintro ⟨r, c, hr, hc, hne, hunit, hval⟩
    rcases hunit with hu | hu | hu
    · have hcc : c ≠ col := fun hcc => hne ⟨hu, hcc⟩
      rw [hu] at hval
      rw [if_pos]
      exact List.any_eq_true.mpr ⟨c, List.mem_range.mpr hc,
        by rw [Bool.and_eq_true, decide_eq_true_iff, decide_eq_true_iff]; exact ⟨hcc, hval⟩⟩
    · have hrr : r ≠ row := fun hrr => hne ⟨hrr, hu⟩
      rw [hu] at hval
      by_cases h1 : (List.range 9).any
          (fun c => decide (c ≠ col) && decide (cellAt g row c = some v)) = true
      · rw [if_pos h1]
      · rw [if_neg h1, if_pos]
        exact List.any_eq_true.mpr ⟨r, List.mem_range.mpr hr,
          by rw [Bool.and_eq_true, decide_eq_true_iff, decide_eq_true_iff]; exact ⟨hrr, hval⟩⟩
    · by_cases h1 : (List.range 9).any
          (fun c => decide (c ≠ col) && decide (cellAt g row c = some v)) = true
      · rw [if_pos h1]
      · rw [if_neg h1]
        by_cases h2 : (List.range 9).any
            (fun r => decide (r ≠ row) && decide (cellAt g r col = some v)) = true
        · rw [if_pos h2]
        · rw [if_neg h2, if_pos]
          refine List.any_eq_true.mpr ⟨r - row / 3 * 3, List.mem_range.mpr (by omega), ?_⟩
          refine List.any_eq_true.mpr ⟨c - col / 3 * 3, List.mem_range.mpr (by omega), ?_⟩
          rw [Bool.and_eq_true, decide_eq_true_iff, decide_eq_true_iff]
          have hr' : row / 3 * 3 + (r - row / 3 * 3) = r := by omega
          have hc' : col / 3 * 3 + (c - col / 3 * 3) = c := by omega
          rw [hr', hc']
          refine ⟨?_, hval⟩
          by_contra hcon
          push_neg at hcon
          exact hne ⟨hcon.1, hcon.2⟩

/-- C5: for every grid and in-range position, isValidPlacement accepts the
empty value, and rejects a value exactly when it already occurs at some
other cell of the same row, column or box (the cell itself excluded). -/
theorem claim_C5_isValidPlacement (g : Grid) (row col v : Nat)
    (hrow : row < 9) (hcol : col < 9) :
    isValidMove g row col none = true ∧
    (isValidMove g row col (some v) = false ↔
      ∃ r c, r < 9 ∧ c < 9 ∧ ¬(r = row ∧ c = col) ∧ SameUnit r c row col ∧
        cellAt g r c = some v) :=
  ⟨isValidMove_none g row col, isValidMove_eq_false_iff g row col v hrow hcol⟩

/-- C5 witness at a concrete conflicting grid and position. -/
theorem claim_C5_isValidPlacement_witness :
    isValidMove gridRowDup 0 0 none = true ∧
    (isValidMove gridRowDup 0 0 (some 5) = false ↔
      ∃ r c, r < 9 ∧ c < 9 ∧ ¬(r = 0 ∧ c = 0) ∧ SameUnit r c 0 0 ∧
        cellAt gridRowDup r c = some 5) :=
  claim_C5_isValidPlacement gridRowDup 0 0 5 (by decide) (by decide)

theorem SameUnit_symm {r c r2 c2 : Nat} (h : SameUnit r c r2 c2) :
    SameUnit r2 c2 r c := by
  rcases h with h | h | h
  · exact Or.inl h.symm
  · exact Or.inr (Or.inl h.symm)
  · exact Or.inr (Or.inr ⟨h.1.symm, h.2.symm⟩)

theorem isValidMove_eq_true_iff (g : Grid) (row col v : Nat)
    (hrow : row < 9) (hcol : col < 9) :
    isValidMove g row col (some v) = true ↔
      ∀ r c, r < 9 → c < 9 → ¬(r = row ∧ c = col) → SameUnit r c row col →
        cellAt g r c ≠ some v := by
  have hchar := isValidMove_eq_false_iff g row col v hrow hcol
  constructor
  · intro h r c hr hc hne hunit hval
    have hfalse : isValidMove g row col (some v) = false :=
      hchar.mpr ⟨r, c, hr, hc, hne, hunit, hval⟩
    rw [h] at hfalse
    cases hfalse
  · intro h
    cases hb : isValidMove g row col (some v)
    · exfalso
      rcases hchar.mp hb with ⟨r, c, hr, hc, hne, hunit, hval⟩
      exact h r c hr hc hne hunit hval
    · rfl

theorem list_set_same {α : Type} :
    ∀ (l : List α) (i : Nat) (x : α), l[i]? = some x → l.set i x = l := by
  intro l
  induction l with
  | nil => intro i x h; simp at h
  | cons a tl ih =>
    intro i x h
    cases i with
    | zero =>
      simp only [List.getElem?_cons_zero, Option.some.injEq] at h
      rw [← h]
      rfl
    | succ n =>
      simp only [List.getElem?_cons_succ] at h
      simp [List.set, ih n x h]

theorem getD_eq_getElem_of_lt {α : Type} (l : List α) (c : Nat) (d : α)
    (h : c < l.length) : l.getD c d = l[c] := by
  rw [List.getD_eq_getElem?_getD, List.getElem?_eq_getElem h]
  rfl

theorem row_getElem (g : Grid) (hg : WFshape g) (r c : Nat)
    (hr : r < 9) (hc : c < 9) :
    (g.getD r [])[c]? = some (cellAt g r c) := by
  have hlen : c < (g.getD r []).length := by
    rw [wf_row_length g hg r hr]; omega
  unfold cellAt
  rw [List.getElem?_eq_getElem hlen, getD_eq_getElem_of_lt _ c none hlen]

theorem grid_getElem (g : Grid) (hg : WFshape g) (r : Nat) (hr : r < 9) :
    g[r]? = some (g.getD r []) := by
  have hlen : r < g.length := by
    have := hg.1; omega
  rw [List.getElem?_eq_getElem hlen]
  simp [List.getD_eq_getElem?_getD, List.getElem?_eq_getElem hlen]

theorem setCell_eq_self (g : Grid) (hg : WFshape g) (r c : Nat) (v : Cell)
    (hr : r < 9) (hc : c < 9) (h : cellAt g r c = v) :
    setCell g r c v = g := by
  unfold setCell
  rw [← h, list_set_same (g.getD r []) c (cellAt g r c) (row_getElem g hg r c hr hc),
    list_set_same g r (g.getD r []) (grid_getElem g hg r hr)]

theorem completion_placement (g s : Grid) (hcomp : Completion g s)
    (r c : Nat) (hr : r < 9) (hc : c < 9) :
    ∃ v, 1 ≤ v ∧ v ≤ 9 ∧ cellAt s r c = some v ∧
      isValidMove g r c (some v) = true := by
  obtain ⟨⟨hshape, hfull, hdist⟩, hext⟩ := hcomp
  obtain ⟨v, hv1, hv9, hval⟩ := hfull r c hr hc
  refine ⟨v, hv1, hv9, hval, ?_⟩
  rw [isValidMove_eq_true_iff g r c v hr hc]
  intro r2 c2 hr2 hc2 hne hunit hval2
  have hs2 : cellAt s r2 c2 = some v := by
    rw [hext r2 c2 hr2 hc2 (by rw [hval2]; simp), hval2]
  refine hdist r c r2 c2 hr hc hr2 hc2 ?_ (SameUnit_symm hunit) ?_
  · intro hcon
    exact hne ⟨hcon.1.symm, hcon.2.symm⟩
  · rw [hval, hs2]

theorem completion_setCell (g s : Grid) (hshape : WFshape g)
    (hcomp : Completion g s) (r c v : Nat)
    (hr : r < 9) (hc : c < 9) (hsv : cellAt s r c = some v) :
    Completion (setCell g r c (some v)) s := by
  refine ⟨hcomp.1, ?_⟩
  intro i j hi hj hne
  by_cases hij : i = r ∧ j = c
  · have hnew : cellAt (setCell g r c (some v)) i j = some v := by
      rw [hij.1, hij.2]
      apply cellAt_setCell_self
      · have := hshape.1; omega
      · rw [wf_row_length g hshape r hr]; omega
    rw [hnew, hij.1, hij.2, hsv]
  · rw [cellAt_setCell_other g r c _ i j hij] at hne ⊢
    exact hcomp.2 i j hi hj hne

theorem completion_of_setCell (g s : Grid) (r c : Nat) (x : Cell)
    (hcell : cellAt g r c = none)
    (hcomp : Completion (setCell g r c x) s) :
    Completion g s := by
  refine ⟨hcomp.1, ?_⟩
  intro i j hi hj hne
  by_cases hij : i = r ∧ j = c
  · rw [hij.1, hij.2, hcell] at hne
    exact absurd rfl hne
  · rw [← cellAt_setCell_other g r c x i j hij]
    exact hcomp.2 i j hi hj
      (by rw [cellAt_setCell_other g r c x i j hij]; exact hne)

theorem consistent_setCell (g : Grid) (hg : WFshape g) (hcons : ConsistentG g)
    (r c v : Nat) (hr : r < 9) (hc : c < 9)
    (hvalid : isValidMove g r c (some v) = true) :
    ConsistentG (setCell g r c (some v)) := by
  intro i hi j hj hne
  have hself : cellAt (setCell g r c (some v)) r c = some v := by
    apply cellAt_setCell_self
    · have := hg.1; omega
    · rw [wf_row_length g hg r hr]; omega
  by_cases hij : i = r ∧ j = c
  · have hval2 : cellAt (setCell g r c (some v)) i j = some v := by
      rw [hij.1, hij.2]; exact hself
    rw [hval2]
    rw [isValidMove_eq_true_iff _ i j v hi hj]
    intro r2 c2 hr2 hc2 hne2 hunit hv2
    have h2 : ¬(r2 = r ∧ c2 = c) := by
      intro hcon
      exact hne2 ⟨by rw [hcon.1, hij.1], by rw [hcon.2, hij.2]⟩
    rw [cellAt_setCell_other g r c _ r2 c2 h2] at hv2
    rw [isValidMove_eq_true_iff g r c v hr hc] at hvalid
    refine hvalid r2 c2 hr2 hc2 h2 ?_ hv2
    rw [← hij.1, ← hij.2]
    exact hunit
  · have hval2 : cellAt (setCell g r c (some v)) i j = cellAt g i j :=
      cellAt_setCell_other g r c _ i j hij
    rw [hval2] at hne ⊢
    rcases hcell2 : cellAt g i j with _ | w
    · rw [hcell2] at hne
      exact absurd rfl hne
    · have hold : isValidMove g i j (some w) = true := by
        have := hcons i hi j hj (by rw [hcell2]; simp)
        rw [hcell2] at this
        exact this
      rw [isValidMove_eq_true_iff _ i j w hi hj]
      intro r2 c2 hr2 hc2 hne2 hunit hv2
      by_cases h2 : r2 = r ∧ c2 = c
      · have hvv : cellAt (setCell g r c (some v)) r2 c2 = some v := by
          rw [h2.1, h2.2]; exact hself
        rw [hv2] at hvv
        have hwv : w = v := by injection hvv
        rw [isValidMove_eq_true_iff g r c v hr hc] at hvalid
        refine hvalid i j hi hj hij ?_ ?_
        · refine SameUnit_symm ?_
          rw [← h2.1, ← h2.2]
          exact hunit
        · rw [hcell2, hwv]
      · rw [cellAt_setCell_other g r c _ r2 c2 h2] at hv2
        rw [isValidMove_eq_true_iff g i j w hi hj] at hold
        exact hold r2 c2 hr2 hc2 hne2 hunit hv2

theorem validFull_of_full_consistent (g : Grid) (hg : WF g)
    (hcons : ConsistentG g)
    (hfull : ∀ r < 9, ∀ c < 9, cellAt g r c ≠ none) : ValidFull g := by
  refine ⟨hg.1, ?_, ?_⟩
  · intro i j hi hj
    have hok := cellOK_cellAt g hg i j
    rcases hcell : cellAt g i j with _ | v
    · exact absurd hcell (hfull i hi j hj)
    · rw [hcell] at hok
      exact ⟨v, hok.1, hok.2, rfl⟩
  · intro i j i2 j2 hi hj hi2 hj2 hne hunit
    rcases hcell : cellAt g i j with _ | v
    · exact absurd hcell (hfull i hi j hj)
    · have hv := hcons i hi j hj (by rw [hcell]; simp)
      rw [hcell] at hv
      rw [isValidMove_eq_true_iff g i j v hi hj] at hv
      intro heq
      have hval2 : cellAt g i2 j2 = some v := heq.symm
      refine hv i2 j2 hi2 hj2 ?_ (SameUnit_symm hunit) hval2
      intro hcon
      exact hne ⟨hcon.1.symm, hcon.2.symm⟩

theorem fold_setCell_shape (w : Grid) :
    ∀ (l : List (Nat × Nat)) (acc : Grid), WFshape acc →
      (∀ p ∈ l, p.1 < 9) →
      WFshape (l.foldl (fun a p => setCell a p.1 p.2 (cellAt w p.1 p.2)) acc) := by
  intro l
  induction l with
  | nil => intro acc hacc _; exact hacc
  | cons p tl ih =>
    intro acc hacc hl
    rw [List.foldl_cons]
    exact ih _ (WFshape_setCell acc p.1 p.2 _ hacc (hl p (List.mem_cons_self p tl)))
      (fun q hq => hl q (List.mem_cons_of_mem p hq))

theorem fold_setCell_cellAt (w : Grid) :
    ∀ (l : List (Nat × Nat)) (acc : Grid), WFshape acc →
      (∀ p ∈ l, p.1 < 9 ∧ p.2 < 9) →
      ∀ i j, i < 9 → j < 9 →
        cellAt (l.foldl (fun a p => setCell a p.1 p.2 (cellAt w p.1 p.2)) acc) i j =
          if (i, j) ∈ l then cellAt w i j else cellAt acc i j := by
  intro l
  induction l with
  | nil =>
    intro acc _ _ i j _ _
    rw [List.foldl_nil, if_neg (by simp)]
  | cons p tl ih =>
    intro acc hacc hl i j hi hj
    rw [List.foldl_cons]
    have hp := hl p (List.mem_cons_self p tl)
    have hacc2 : WFshape (setCell acc p.1 p.2 (cellAt w p.1 p.2)) :=
      WFshape_setCell acc p.1 p.2 _ hacc hp.1
    rw [ih _ hacc2 (fun q hq => hl q (List.mem_cons_of_mem p hq)) i j hi hj]
    by_cases hmem : (i, j) ∈ tl
    · rw [if_pos hmem, if_pos (List.mem_cons_of_mem p hmem)]
    · rw [if_neg hmem]
      by_cases hij : (i, j) = p
      · rw [if_pos (by rw [hij]; exact List.mem_cons_self p tl)]
        have h1 : i = p.1 := by rw [← hij]
        have h2 : j = p.2 := by rw [← hij]
        rw [h1, h2]
        apply cellAt_setCell_self
        · have := hacc.1; omega
        · rw [wf_row_length acc hacc p.1 hp.1]
          exact hp.2
      · rw [if_neg (by
          intro hcon
          rcases List.mem_cons.mp hcon with h1 | h1
          · exact hij h1
          · exact hmem h1)]
        apply cellAt_setCell_other
        intro hcon
        exact hij (Prod.ext hcon.1 hcon.2)

theorem WFshape_overwrite (w r : Grid) (hr : WFshape r) :
    WFshape (overwrite w r) := by
  unfold overwrite
  exact fold_setCell_shape w allPositions r hr
    (fun p hp => ((mem_allPositions p).mp hp).1)

theorem cellAt_overwrite (w r : Grid) (hr : WFshape r) (i j : Nat)
    (hi : i < 9) (hj : j < 9) :
    cellAt (overwrite w r) i j = cellAt w i j := by
  unfold overwrite
  rw [fold_setCell_cellAt w allPositions r hr
    (fun p hp => (mem_allPositions p).mp hp) i j hi hj]
  rw [if_pos ((mem_allPositions (i, j)).mpr ⟨hi, hj⟩)]

theorem completion_overwrite (w r : Grid) (hw : WF w) (hr : WFshape r)
    (hcons : ConsistentG w)
    (hfull : ∀ i < 9, ∀ j < 9, cellAt w i j ≠ none) :
    Completion w (overwrite w r) := by
  have hvf : ValidFull w := validFull_of_full_consistent w hw hcons hfull
  obtain ⟨hshape, hcells, hdist⟩ := hvf
  refine ⟨⟨WFshape_overwrite w r hr, ?_, ?_⟩, ?_⟩
  · intro i j hi hj
    rw [cellAt_overwrite w r hr i j hi hj]
    exact hcells i j hi hj
  · intro i j i2 j2 hi hj hi2 hj2 hne hunit
    rw [cellAt_overwrite w r hr i j hi hj, cellAt_overwrite w r hr i2 j2 hi2 hj2]
    exact hdist i j i2 j2 hi hj hi2 hj2 hne hunit
  · intro i j hi hj _
    rw [cellAt_overwrite w r hr i j hi hj]

theorem solveTry_nil (srec : Grid → Grid → Bool × Grid) (w res : Grid)
    (row col : Nat) : solveTry srec w res row col [] = (false, res) := rfl

theorem solveTry_cons_invalid (srec : Grid → Grid → Bool × Grid)
    (w res : Grid) (row col num : Nat) (rest : List Nat)
    (h : isValidMove w row col (some num) = false) :
    solveTry srec w res row col (num :: rest) =
      solveTry srec w res row col rest := by
  simp [solveTry, h]

theorem solveTry_cons_valid_true (srec : Grid → Grid → Bool × Grid)
    (w res res2 : Grid) (row col num : Nat) (rest : List Nat)
    (hv : isValidMove w row col (some num) = true)
    (hs : srec (setCell w row col (some num)) res = (true, res2)) :
    solveTry srec w res row col (num :: rest) =
      (true, setCell res2 row col (some num)) := by
  simp [solveTry, hv, hs]

theorem solveTry_cons_valid_false (srec : Grid → Grid → Bool × Grid)
    (w res res2 : Grid) (row col num : Nat) (rest : List Nat)
    (hv : isValidMove w row col (some num) = true)
    (hs : srec (setCell w row col (some num)) res = (false, res2)) :
    solveTry srec w res row col (num :: rest) =
      solveTry srec w res2 row col rest := by
  simp [solveTry, hv, hs]

theorem solveRecursive_none (f : Nat) (w res : Grid)
    (h : firstEmpty w = none) :
    solveRecursive (f + 1) w res = (true, overwrite w res) := by
  simp [solveRecursive, h]

theorem solveRecursive_none_fst (f : Nat) (w res : Grid)
    (h : firstEmpty w = none) :
    (solveRecursive (f + 1) w res).1 = true := by
  rw [solveRecursive_none f w res h]

theorem solveRecursive_none_snd (f : Nat) (w res : Grid)
    (h : firstEmpty w = none) :
    (solveRecursive (f + 1) w res).2 = overwrite w res := by
  rw [solveRecursive_none f w res h]

theorem solveRecursive_some (f : Nat) (w res : Grid) (row col : Nat)
    (h : firstEmpty w = some (row, col)) :
    solveRecursive (f + 1) w res =
      solveTry (solveRecursive f) w res row col [1, 2, 3, 4, 5, 6, 7, 8, 9] := by
  simp [solveRecursive, h]

theorem solveTry_spec (srec : Grid → Grid → Bool × Grid) (F : Nat)
    (hsrec : ∀ w2 r2, WF w2 → WFshape r2 → ConsistentG w2 → numEmpty w2 < F →
      ((srec w2 r2).1 = false → (srec w2 r2).2 = r2 ∧ ∀ s, ¬ Completion w2 s) ∧
      ((srec w2 r2).1 = true → Completion w2 (srec w2 r2).2 ∧ WFshape (srec w2 r2).2)) :
    ∀ (nums : List Nat) (w res : Grid) (row col : Nat),
      WF w → WFshape res → ConsistentG w → numEmpty w ≤ F →
      row < 9 → col < 9 → cellAt w row col = none →
      (∀ v ∈ nums, 1 ≤ v ∧ v ≤ 9) →
      ((solveTry srec w res row col nums).1 = false →
        (solveTry srec w res row col nums).2 = res ∧
        ∀ s, Completion w s → ∀ v ∈ nums, cellAt s row col ≠ some v) ∧
      ((solveTry srec w res row col nums).1 = true →
        Completion w (solveTry srec w res row col nums).2 ∧
        WFshape (solveTry srec w res row col nums).2) := by
  intro nums
  induction nums with
  | nil =>
    intro w res row col hw hres hcons hF hrow hcol hcell hnums
    rw [solveTry_nil]
    constructor
    · intro _
      exact ⟨rfl, fun s _ v hv => absurd hv (List.not_mem_nil v)⟩
    · intro h
      simp at h
  | cons num rest ih =>
    intro w res row col hw hres hcons hF hrow hcol hcell hnums
    have hnum := hnums num (List.mem_cons_self num rest)
    have hrest : ∀ v ∈ rest, 1 ≤ v ∧ v ≤ 9 :=
      fun v hv => hnums v (List.mem_cons_of_mem num hv)
    by_cases hvalid : isValidMove w row col (some num) = true
    · have hw2 : WF (setCell w row col (some num)) :=
        WF_setCell w row col (some num) hw hrow ⟨hnum.1, hnum.2⟩
      have hcons2 : ConsistentG (setCell w row col (some num)) :=
        consistent_setCell w hw.1 hcons row col num hrow hcol hvalid
      have hnum2 : numEmpty (setCell w row col (some num)) < F := by
        have h1 := numEmpty_setCell w row col num hw.1 hrow hcol hcell
        omega
      have hcell2self : cellAt (setCell w row col (some num)) row col = some num := by
        apply cellAt_setCell_self
        · have := hw.1.1; omega
        · rw [wf_row_length w hw.1 row hrow]; omega
      have hspec2 := hsrec (setCell w row col (some num)) res hw2 hres hcons2 hnum2
      rcases hsr : srec (setCell w row col (some num)) res with ⟨b, res2⟩
      rw [hsr] at hspec2
      cases b with
      | true =>
        have hcomp2 : Completion (setCell w row col (some num)) res2 :=
          (hspec2.2 rfl).1
        have hshape2 : WFshape res2 := (hspec2.2 rfl).2
        have hcellres : cellAt res2 row col = some num := by
          rw [hcomp2.2 row col hrow hcol (by rw [hcell2self]; simp), hcell2self]
        have hset : setCell res2 row col (some num) = res2 :=
          setCell_eq_self res2 hshape2 row col (some num) hrow hcol hcellres
        rw [solveTry_cons_valid_true srec w res res2 row col num rest hvalid hsr, hset]
        constructor
        · intro hfalse
          simp at hfalse
        · intro _
          exact ⟨completion_of_setCell w res2 row col (some num) hcell hcomp2, hshape2⟩
      | false =>
        have hres2eq : res2 = res := (hspec2.1 rfl).1
        have hnc2 : ∀ s, ¬ Completion (setCell w row col (some num)) s :=
          (hspec2.1 rfl).2
        rw [solveTry_cons_valid_false srec w res res2 row col num rest hvalid hsr,
          hres2eq]
        obtain ⟨ihf, iht⟩ := ih w res row col hw hres hcons hF hrow hcol hcell hrest
        constructor
        · intro hfalse
          obtain ⟨hreseq, hnc⟩ := ihf hfalse
          refine ⟨hreseq, ?_⟩
          intro s hcomp v hv hsv
          rcases List.mem_cons.mp hv with hveq | hvmem
          · refine hnc2 s ?_
            rw [hveq] at hsv
            exact completion_setCell w s hw.1 hcomp row col num hrow hcol hsv
          · exact hnc s hcomp v hvmem hsv
        · exact iht
    · have hvfalse : isValidMove w row col (some num) = false := by
        cases hbv : isValidMove w row col (some num)
        · rfl
        · exact absurd hbv hvalid
      rw [solveTry_cons_invalid srec w res row col num rest hvfalse]
      obtain ⟨ihf, iht⟩ := ih w res row col hw hres hcons hF hrow hcol hcell hrest
      constructor
      · intro hfalse
        obtain ⟨hreseq, hnc⟩ := ihf hfalse
        refine ⟨hreseq, ?_⟩
        intro s hcomp v hv hsv
        rcases List.mem_cons.mp hv with hveq | hvmem
        · obtain ⟨v2, _, _, hsv2, hvalid2⟩ :=
            completion_placement w s hcomp row col hrow hcol
          have hvv : some v = some v2 := by rw [← hsv, hsv2]
          have hv2eq : v = v2 := by injection hvv
          rw [← hv2eq, hveq] at hvalid2
          rw [hvalid2] at hvfalse
          cases hvfalse
        · exact hnc s hcomp v hvmem hsv
      · exact iht

theorem solveRecursive_spec :
    ∀ (fuel : Nat) (w res : Grid), WF w → WFshape res → ConsistentG w →
      numEmpty w < fuel →
      ((solveRecursive fuel w res).1 = false →
        (solveRecursive fuel w res).2 = res ∧ ∀ s, ¬ Completion w s) ∧
      ((solveRecursive fuel w res).1 = true →
        Completion w (solveRecursive fuel w res).2 ∧
        WFshape (solveRecursive fuel w res).2) := by
  intro fuel
  induction fuel with
  | zero =>
    intro w res _ _ _ hf
    omega
  | succ f ih =>
    intro w res hw hres hcons hf
    cases hfe : firstEmpty w with
    | none =>
      constructor
      · intro hfalse
        rw [solveRecursive_none_fst f w res hfe] at hfalse
        cases hfalse
      · intro _
        rw [solveRecursive_none_snd f w res hfe]
        exact ⟨completion_overwrite w res hw hres hcons
          ((firstEmpty_eq_none_iff w).mp hfe), WFshape_overwrite w res hres⟩
    | some rc =>
      rcases rc with ⟨row, col⟩
      obtain ⟨hrow, hcol, hcell⟩ := firstEmpty_some w row col hfe
      rw [solveRecursive_some f w res row col hfe]
      have hts := solveTry_spec (solveRecursive f) f ih
        [1, 2, 3, 4, 5, 6, 7, 8, 9] w res row col
        hw hres hcons (by omega) hrow hcol hcell (by decide)
      constructor
      · intro hfalse
        obtain ⟨hreseq, hnc⟩ := hts.1 hfalse
        refine ⟨hreseq, ?_⟩
        intro s hcomp
        obtain ⟨v, hv1, hv9, hsv, _⟩ :=
          completion_placement w s hcomp row col hrow hcol
        exact hnc s hcomp v (by simp; omega) hsv
      · exact hts.2

theorem solvePuzzle_spec (g : Grid) (hg : WF g) (hcons : ConsistentG g) :
    ((solvePuzzle g).1 = false ↔ ∀ s, ¬ Completion g s) ∧
    ((solvePuzzle g).1 = false → (solvePuzzle g).2 = g) := by
  have hspec := solveRecursive_spec 82 g g hg hg.1 hcons
    (by have := numEmpty_le g; omega)
  unfold solvePuzzle
  refine ⟨⟨fun h => (hspec.1 h).2, fun h => ?_⟩, fun h => (hspec.1 h).1⟩
  cases hb : (solveRecursive 82 g g).1
  · rfl
  · exact absurd (hspec.2 hb).1 (h _)

theorem validateGrid_conflicts (g : Grid) :
    (validateGrid g).conflicts = allPositions.filter
      (fun p => decide (cellAt g p.1 p.2 ≠ none) &&
        !(isValidMove g p.1 p.2 (cellAt g p.1 p.2))) := rfl

theorem validateGrid_isValid (g : Grid) :
    (validateGrid g).isValid = decide ((validateGrid g).conflicts.length = 0) := rfl

theorem validateGrid_isCompleted (g : Grid) :
    (validateGrid g).isCompleted =
      (decide ((validateGrid g).conflicts.length = 0) &&
       decide ((allPositions.filter
         (fun p => decide (cellAt g p.1 p.2 ≠ none))).length = 81)) := rfl

theorem filled_count_iff (g : Grid) :
    (allPositions.filter (fun p => decide (cellAt g p.1 p.2 ≠ none))).length = 81 ↔
      ∀ r < 9, ∀ c < 9, cellAt g r c ≠ none := by
  constructor
  · intro h r hr c hc
    have hsub : List.Sublist
        (allPositions.filter (fun p => decide (cellAt g p.1 p.2 ≠ none)))
        allPositions := List.filter_sublist allPositions
    have heq : allPositions.filter (fun p => decide (cellAt g p.1 p.2 ≠ none)) =
        allPositions := hsub.eq_of_length (by rw [h, length_allPositions])
    have hmem : (r, c) ∈ allPositions.filter
        (fun p => decide (cellAt g p.1 p.2 ≠ none)) := by
      rw [heq]
      exact (mem_allPositions (r, c)).mpr ⟨hr, hc⟩
    simpa using (List.mem_filter.mp hmem).2
  · intro h
    have heq : allPositions.filter (fun p => decide (cellAt g p.1 p.2 ≠ none)) =
        allPositions := by
      rw [List.filter_eq_self]
      intro p hp
      rw [mem_allPositions] at hp
      simpa using h p.1 hp.1 p.2 hp.2
    rw [heq, length_allPositions]

/-- C6: validate reports a conflict exactly at the non-empty in-range cells
that fail the placement re-check; the validity flag holds iff the conflict
list is empty; the completion flag holds iff there are no conflicts and
every one of the 81 cells is filled. -/
theorem claim_C6_validateGrid (g : Grid) :
    (∀ r c, (r, c) ∈ (validateGrid g).conflicts ↔
      (r < 9 ∧ c < 9 ∧ cellAt g r c ≠ none ∧
        isValidMove g r c (cellAt g r c) = false)) ∧
    ((validateGrid g).isValid = true ↔ (validateGrid g).conflicts = []) ∧
    ((validateGrid g).isCompleted = true ↔
      ((validateGrid g).conflicts = [] ∧ ∀ r < 9, ∀ c < 9, cellAt g r c ≠ none)) := by
  refine ⟨?_, ?_, ?_⟩
  · intro r c
    rw [validateGrid_conflicts, List.mem_filter, mem_allPositions]
    simp only [Bool.and_eq_true, decide_eq_true_eq, Bool.not_eq_true']
    tauto
  · rw [validateGrid_isValid, decide_eq_true_eq, List.length_eq_zero]
  · rw [validateGrid_isCompleted, Bool.and_eq_true, decide_eq_true_eq,
      decide_eq_true_eq, List.length_eq_zero, filled_count_iff]

/-- C7 as stated fails: on the full, constraint-violating all-ones grid,
solve returns true although no valid completion exists. -/
theorem claim_C7_counterexample :
    (solvePuzzle allOnes).1 = true ∧ ¬ ∃ s, Completion allOnes s := by
  constructor
  · decide
  · rintro ⟨s, hs⟩
    have h00 : cellAt s 0 0 = some 1 := by
      rw [hs.2 0 0 (by omega) (by omega) (by decide)]
      decide
    have h01 : cellAt s 0 1 = some 1 := by
      rw [hs.2 0 1 (by omega) (by omega) (by decide)]
      decide
    exact hs.1.2.2 0 0 0 1 (by omega) (by omega) (by omega) (by omega)
      (by intro hcon; exact absurd hcon.2 (by decide)) (Or.inl rfl)
      (by rw [h00, h01])

theorem solveTry_frame (srec : Grid → Grid → Bool × Grid)
    (hsrec : ∀ w2 r2 r2p, srec w2 r2 = (false, r2p) → r2p = r2) :
    ∀ (nums : List Nat) (w res : Grid) (row col : Nat) (res2 : Grid),
      solveTry srec w res row col nums = (false, res2) → res2 = res := by
  intro nums
  induction nums with
  | nil =>
    intro w res row col res2 h
    rw [solveTry_nil] at h
    simp only [Prod.mk.injEq] at h
    exact h.2.symm
  | cons num rest ih =>
    intro w res row col res2 h
    by_cases hv : isValidMove w row col (some num) = true
    · rcases hsr : srec (setCell w row col (some num)) res with ⟨b, resin⟩
      cases b
      · rw [solveTry_cons_valid_false srec w res resin row col num rest hv hsr] at h
        rw [hsrec _ _ _ hsr] at h
        exact ih w res row col res2 h
      · rw [solveTry_cons_valid_true srec w res resin row col num rest hv hsr] at h
        simp only [Prod.mk.injEq] at h
        exact absurd h.1 (by simp)
    · have hv2 : isValidMove w row col (some num) = false := by
        cases hb : isValidMove w row col (some num)
        · rfl
        · exact absurd hb hv
      rw [solveTry_cons_invalid srec w res row col num rest hv2] at h
      exact ih w res row col res2 h

theorem solveRecursive_frame :
    ∀ (fuel : Nat) (w res res2 : Grid),
      solveRecursive fuel w res = (false, res2) → res2 = res := by
  intro fuel
  induction fuel with
  | zero =>
    intro w res res2 h
    simp only [solveRecursive, Prod.mk.injEq] at h
    exact h.2.symm
  | succ f ih =>
    intro w res res2 h
    cases hfe : firstEmpty w with
    | none =>
      rw [solveRecursive_none f w res hfe] at h
      simp only [Prod.mk.injEq] at h
      exact absurd h.1 (by simp)
    | some rc =>
      rcases rc with ⟨row, col⟩
      rw [solveRecursive_some f w res row col hfe] at h
      exact solveTry_frame (solveRecursive f)
        (fun w2 r2 r2p h2 => ih w2 r2 r2p h2)
        [1, 2, 3, 4, 5, 6, 7, 8, 9] w res row col res2 h

theorem solvePuzzle_frame (g : Grid) :
    (solvePuzzle g).1 = false → (solvePuzzle g).2 = g := by
  intro h
  unfold solvePuzzle at h ⊢
  rcases hp : solveRecursive 82 g g with ⟨b, res⟩
  rw [hp] at h
  cases b
  · exact solveRecursive_frame 82 g g res hp
  · exact Bool.noConfusion h

/-- C7 (amended): solve leaves the input grid unchanged whenever it
returns false, for every grid; and for every well-formed grid whose
filled cells already pass the placement check, solve returns false iff
the grid has no completion satisfying the row/column/box constraints. -/
theorem claim_C7_solve (g : Grid) :
    ((solvePuzzle g).1 = false → (solvePuzzle g).2 = g) ∧
    (WF g → ConsistentG g →
      ((solvePuzzle g).1 = false ↔ ¬ ∃ s, Completion g s)) := by
  constructor
  · exact solvePuzzle_frame g
  · intro hg hcons
    have h := solvePuzzle_spec g hg hcons
    rw [h.1]
    exact not_exists.symm

/-- C7 witness: the amended theorem applied to a consistent nearly-full
concrete puzzle. -/
theorem claim_C7_solve_witness :
    ((solvePuzzle gridNearFull).1 = false → (solvePuzzle gridNearFull).2 = gridNearFull) ∧
    ((solvePuzzle gridNearFull).1 = false ↔ ¬ ∃ s, Completion gridNearFull s) :=
  ⟨(claim_C7_solve gridNearFull).1,
   (claim_C7_solve gridNearFull).2 (by decide) (by decide)⟩

theorem makeMove_no_session (s : ManagerState) (row col : Int) (v : Cell)
    (now : Nat) (h : s.gameData = none) :
    makeMove s row col v now = Except.ok (s, false) := by
  simp only [makeMove, h]

theorem makeMove_not_playing (s : ManagerState) (row col : Int) (v : Cell)
    (now : Nat) (h : s.gameState ≠ GameState.playing) :
    makeMove s row col v now = Except.ok (s, false) := by
  rcases hgd : s.gameData with _ | gd
  · simp only [makeMove, hgd]
  · simp only [makeMove, hgd]
    rw [if_pos h]

theorem makeMove_given_or_badcol (s : ManagerState) (gd : GameData)
    (row col : Int) (v : Cell) (now : Nat) (origRow : List Cell)
    (hgd : s.gameData = some gd)
    (hor : jsIndex gd.originalGrid row = some origRow)
    (hnn : jsCellIsNonNull (jsIndex origRow col) = true) :
    makeMove s row col v now = Except.ok (s, false) := by
  simp only [makeMove, hgd]
  by_cases hst : s.gameState ≠ GameState.playing
  · rw [if_pos hst]
  · rw [if_neg hst]
    simp only [hor]
    rw [if_pos hnn]

theorem makeMove_bad_row (s : ManagerState) (gd : GameData)
    (row col : Int) (v : Cell) (now : Nat)
    (hgd : s.gameData = some gd)
    (hst : s.gameState = GameState.playing)
    (hor : jsIndex gd.originalGrid row = none) :
    makeMove s row col v now = Except.error () := by
  simp only [makeMove, hgd]
  rw [if_neg (by rw [hst]; simp)]
  simp only [hor]

theorem makeMove_ok_inv (s : ManagerState) (row col : Int) (v : Cell)
    (now : Nat) (s' : ManagerState) (b : Bool)
    (h : makeMove s row col v now = Except.ok (s', b)) :
    (s' = s ∧ b = false) ∨
    (b = true ∧ ∃ gd origRow gridRow,
      s.gameData = some gd ∧ s.gameState = GameState.playing ∧
      jsIndex gd.originalGrid row = some origRow ∧
      jsCellIsNonNull (jsIndex origRow col) = false ∧
      jsIndex gd.grid row = some gridRow ∧
      ∃ gd2, s'.gameData = some gd2 ∧
        gd2.grid = setCellI gd.grid row col v ∧
        gd2.originalGrid = gd.originalGrid ∧
        gd2.solution = gd.solution ∧
        gd2.moveHistory = gd.moveHistory ++
          [⟨row, col, (jsIndex gridRow col).getD none, v, now⟩]) := by
  rcases hgd : s.gameData with _ | gd
  · rw [makeMove_no_session s row col v now hgd] at h
    simp only [Except.ok.injEq, Prod.mk.injEq] at h
    exact Or.inl ⟨h.1.symm, h.2.symm⟩
  · by_cases hst : s.gameState = GameState.playing
    · rcases hor : jsIndex gd.originalGrid row with _ | origRow
      · rw [makeMove_bad_row s gd row col v now hgd hst hor] at h
        simp at h
      · by_cases hnn : jsCellIsNonNull (jsIndex origRow col) = true
        · rw [makeMove_given_or_badcol s gd row col v now origRow hgd hor hnn] at h
          simp only [Except.ok.injEq, Prod.mk.injEq] at h
          exact Or.inl ⟨h.1.symm, h.2.symm⟩
        · have hnn2 : jsCellIsNonNull (jsIndex origRow col) = false := by
            cases hx : jsCellIsNonNull (jsIndex origRow col)
            · rfl
            · exact absurd hx hnn
          rcases hgr : jsIndex gd.grid row with _ | gridRow
          · have herr : makeMove s row col v now = Except.error () := by
              simp only [makeMove, hgd]
              rw [if_neg (by rw [hst]; simp)]
              simp only [hor]
              rw [if_neg hnn]
              simp only [hgr]
            rw [herr] at h
            simp at h
          · simp only [makeMove, hgd] at h
            rw [if_neg (by rw [hst]; simp)] at h
            simp only [hor] at h
            rw [if_neg hnn] at h
            simp only [hgr] at h
            split at h
            · simp only [Except.ok.injEq, Prod.mk.injEq] at h
              refine Or.inr ⟨h.2.symm, gd, origRow, gridRow, rfl, hst, hor, hnn2, hgr,
                { gd with
                    grid := setCellI gd.grid row col v
                    moveHistory := gd.moveHistory ++
                      [⟨row, col, (jsIndex gridRow col).getD none, v, now⟩]
                    isCompleted := true
                    timeElapsed := elapsedTime s now }, ?_, rfl, rfl, rfl, rfl⟩
              rw [← h.1]
              rfl
            · simp only [Except.ok.injEq, Prod.mk.injEq] at h
              refine Or.inr ⟨h.2.symm, gd, origRow, gridRow, rfl, hst, hor, hnn2, hgr,
                { gd with
                    grid := setCellI gd.grid row col v
                    moveHistory := gd.moveHistory ++
                      [⟨row, col, (jsIndex gridRow col).getD none, v, now⟩] }, ?_, rfl, rfl, rfl, rfl⟩
              rw [← h.1]
    · rw [makeMove_not_playing s row col v now hst] at h
      simp only [Except.ok.injEq, Prod.mk.injEq] at h
      exact Or.inl ⟨h.1.symm, h.2.symm⟩

theorem undoMove_no_session (s : ManagerState) (h : s.gameData = none) :
    undoMove s = (s, false) := by
  simp only [undoMove, h]

theorem undoMove_empty (s : ManagerState) (gd : GameData)
    (hgd : s.gameData = some gd) (h : gd.moveHistory.getLast? = none) :
    undoMove s = (s, false) := by
  simp only [undoMove, hgd, h]

theorem undoMove_pop (s : ManagerState) (gd : GameData) (mv : Move)
    (hgd : s.gameData = some gd) (h : gd.moveHistory.getLast? = some mv) :
    undoMove s = ({ s with gameData := some { gd with
        grid := setCellI gd.grid mv.row mv.col mv.previousValue
        moveHistory := gd.moveHistory.dropLast } }, true) := by
  simp only [undoMove, hgd, h]

theorem jsIndex_neg {α : Type} (l : List α) (i : Int) (h : i < 0) :
    jsIndex l i = none := by
  unfold jsIndex
  rw [if_pos h]

theorem jsIndex_oob {α : Type} (l : List α) (i : Int)
    (h : l.length ≤ i.toNat) : jsIndex l i = none := by
  unfold jsIndex
  split
  · rfl
  · rw [List.get?_eq_getElem?, List.getElem?_eq_none h]

theorem jsIndex_eq_some {α : Type} (l : List α) (i : Int)
    (h0 : 0 ≤ i) (hlt : i.toNat < l.length) :
    jsIndex l i = some (l.get ⟨i.toNat, hlt⟩) := by
  unfold jsIndex
  rw [if_neg (by omega), List.get?_eq_getElem?, List.getElem?_eq_getElem hlt]
  rfl

theorem jsIndex_inv {α : Type} (l : List α) (i : Int) (a : α)
    (h : jsIndex l i = some a) :
    0 ≤ i ∧ ∃ hlt : i.toNat < l.length, a = l.get ⟨i.toNat, hlt⟩ := by
  unfold jsIndex at h
  split at h
  · cases h
  · rename_i hneg
    rw [List.get?_eq_getElem?] at h
    have hlt : i.toNat < l.length := by
      by_contra hge
      rw [List.getElem?_eq_none (Nat.le_of_not_lt hge)] at h
      cases h
    rw [List.getElem?_eq_getElem hlt] at h
    refine ⟨by omega, hlt, ?_⟩
    injection h with h2
    rw [← h2]
    rfl

theorem getD_row_eq_get (g : Grid) (rn : Nat) (hlt : rn < g.length) :
    g.getD rn [] = g.get ⟨rn, hlt⟩ := by
  rw [getD_eq_getElem_of_lt g rn [] hlt]
  rfl

theorem setCell_setCell (g : Grid) (r c : Nat) (v w : Cell)
    (hr : r < g.length) :
    setCell (setCell g r c v) r c w = setCell g r c w := by
  unfold setCell
  rw [List.set_set]
  congr 1
  have hrow : (g.set r ((g.getD r []).set c v)).getD r [] =
      (g.getD r []).set c v := by
    simp only [List.getD_eq_getElem?_getD]
    rw [List.getElem?_set_self hr]
    rfl
  rw [hrow, List.set_set]

theorem setCellI_restore (g : Grid) (hg : WFshape g) (row col : Int)
    (h0r : 0 ≤ row) (hr : row.toNat < 9) (h0c : 0 ≤ col) (hc : col.toNat < 9)
    (v : Cell) :
    setCellI (setCellI g row col v) row col (cellAt g row.toNat col.toNat) = g := by
  unfold setCellI
  rw [if_pos ⟨h0r, h0c⟩, if_pos ⟨h0r, h0c⟩]
  rw [setCell_setCell g row.toNat col.toNat v _ (by have := hg.1; omega)]
  exact setCell_eq_self g hg row.toNat col.toNat _ hr hc rfl

theorem dropLast_concat_eq {α : Type} (l : List α) (a : α) :
    (l ++ [a]).dropLast = l := by
  simp

/-- C3 as stated fails: in a playing session, a move at an out-of-range
row does not return a boolean failure; the read of originalGrid[row][col]
faults (JS TypeError, modelled as an exception). -/
theorem claim_C3_counterexample :
    msPlay.gameState = GameState.playing ∧
    makeMove msPlay 9 0 (some 1) 0 = Except.error () := by
  constructor
  · rfl
  · apply makeMove_bad_row msPlay gd0 9 0 (some 1) 0 rfl rfl
    apply jsIndex_oob
    decide

/-- C3 (amended): makeMove returns a boolean failure and leaves the state
unchanged when there is no session or the state is not playing, and when
the row is in range but the column is out of range or the addressed
original cell is non-empty; when the session is playing and the row is
outside [0,8], the originalGrid[row][col] read faults instead. -/
theorem claim_C3_makeMove (s : ManagerState) (row col : Int) (v : Cell)
    (now : Nat) :
    ((s.gameData = none ∨ s.gameState ≠ GameState.playing) →
      makeMove s row col v now = Except.ok (s, false)) ∧
    (∀ gd, s.gameData = some gd → WFshape gd.originalGrid →
      0 ≤ row → row < 9 →
      (col < 0 ∨ 9 ≤ col ∨ cellAt gd.originalGrid row.toNat col.toNat ≠ none) →
      makeMove s row col v now = Except.ok (s, false)) ∧
    (∀ gd, s.gameData = some gd →
      s.gameState = GameState.playing → WFshape gd.originalGrid →
      (row < 0 ∨ 9 ≤ row) →
      makeMove s row col v now = Except.error ()) := by
  refine ⟨?_, ?_, ?_⟩
  · intro h
    rcases h with h | h
    · exact makeMove_no_session s row col v now h
    · exact makeMove_not_playing s row col v now h
  · intro gd hgd hwf h0r hr9 hbad
    have hlen : row.toNat < gd.originalGrid.length := by
      have := hwf.1; omega
    have hor : jsIndex gd.originalGrid row =
        some (gd.originalGrid.get ⟨row.toNat, hlen⟩) :=
      jsIndex_eq_some gd.originalGrid row h0r hlen
    have hrowlen : (gd.originalGrid.get ⟨row.toNat, hlen⟩).length = 9 := by
      rw [← getD_row_eq_get gd.originalGrid row.toNat hlen]
      exact wf_row_length gd.originalGrid hwf row.toNat (by omega)
    apply makeMove_given_or_badcol s gd row col v now _ hgd hor
    rcases hbad with hneg | hge | hcell
    · rw [jsIndex_neg _ col hneg]
      rfl
    · rw [jsIndex_oob _ col (by omega)]
      rfl
    · have hclt : col.toNat < 9 := by
        by_contra hge2
        rw [show cellAt gd.originalGrid row.toNat col.toNat = none from ?_] at hcell
        · exact hcell rfl
        · unfold cellAt
          rw [getD_row_eq_get gd.originalGrid row.toNat hlen,
            List.getD_eq_getElem?_getD,
            List.getElem?_eq_none (by omega)]
          rfl
      by_cases h0c : 0 ≤ col
      · rw [jsIndex_eq_some _ col h0c (by omega)]
        have hval : (gd.originalGrid.get ⟨row.toNat, hlen⟩).get
            ⟨col.toNat, by omega⟩ = cellAt gd.originalGrid row.toNat col.toNat := by
          unfold cellAt
          rw [getD_row_eq_get gd.originalGrid row.toNat hlen,
            getD_eq_getElem_of_lt _ col.toNat none (by omega)]
          rfl
        rw [hval]
        rcases hcc : cellAt gd.originalGrid row.toNat col.toNat with _ | w
        · exact absurd hcc hcell
        · rfl
      · rw [jsIndex_neg _ col (by omega)]
        rfl
  · intro gd hgd hst hwf hb
    apply makeMove_bad_row s gd row col v now hgd hst
    rcases hb with hb | hb
    · exact jsIndex_neg _ row hb
    · exact jsIndex_oob _ row (by have := hwf.1; omega)

/-- C3 witness: boolean failures at a menu state, at a given cell, and at
an out-of-range column, each leaving the state unchanged. -/
theorem claim_C3_makeMove_witness :
    makeMove msMenu 0 0 (some 1) 0 = Except.ok (msMenu, false) ∧
    makeMove msPlay 0 0 (some 1) 0 = Except.ok (msPlay, false) ∧
    makeMove msPlay 0 9 (some 1) 0 = Except.ok (msPlay, false) :=
  ⟨(claim_C3_makeMove msMenu 0 0 (some 1) 0).1 (Or.inl rfl),
   (claim_C3_makeMove msPlay 0 0 (some 1) 0).2.1 gd0 rfl (by decide) (by decide)
     (by decide) (Or.inr (Or.inr (by decide))),
   (claim_C3_makeMove msPlay 0 9 (some 1) 0).2.1 gd0 rfl (by decide) (by decide)
     (by decide) (Or.inr (Or.inl (by decide)))⟩

/-- C4: in a session, a successful makeMove at an editable cell followed
immediately by undoMove restores the current grid cell for cell and the
move history (undo pops the recorded move and writes its previous value
back), and undoMove fails exactly when the move history is empty. -/
theorem claim_C4_undo_inverse (s : ManagerState) :
    (∀ gd row col v now s2, s.gameData = some gd →
      WFshape gd.grid → WFshape gd.originalGrid →
      makeMove s row col v now = Except.ok (s2, true) →
      (undoMove s2).2 = true ∧
      ∃ gd2, (undoMove s2).1.gameData = some gd2 ∧
        gd2.grid = gd.grid ∧ gd2.moveHistory = gd.moveHistory) ∧
    (∀ gd, s.gameData = some gd → ((undoMove s).2 = false ↔ gd.moveHistory = [])) := by
  constructor
  · intro gd row col v now s2 hgd hwfg hwfo hmk
    rcases makeMove_ok_inv s row col v now s2 true hmk with ⟨_, hb⟩ |
      ⟨_, gdi, origRow, gridRow, hgdi, _, hor, hnn, hgr, gd2, hs2gd, hgrid2,
        _, _, hhist2⟩
    · cases hb
    · have hgdeq : gd = gdi := by
        rw [hgd] at hgdi
        injection hgdi
      subst hgdeq
      obtain ⟨h0r, hltor, horval⟩ := jsIndex_inv gd.originalGrid row _ hor
      have hrn : row.toNat < 9 := by
        have := hwfo.1
        omega
      have horiglen : origRow.length = 9 := by
        rw [horval, ← getD_row_eq_get gd.originalGrid row.toNat hltor]
        exact wf_row_length gd.originalGrid hwfo row.toNat hrn
      have hsomeNone : jsIndex origRow col = some none := by
        rcases hj : jsIndex origRow col with _ | c0
        · rw [hj] at hnn
          cases hnn
        · rcases c0 with _ | w
          · rfl
          · rw [hj] at hnn
            cases hnn
      obtain ⟨h0c, hltc, _⟩ := jsIndex_inv origRow col _ hsomeNone
      have hcn : col.toNat < 9 := by omega
      obtain ⟨_, hltg, hgrval⟩ := jsIndex_inv gd.grid row _ hgr
      have hprev : (jsIndex gridRow col).getD none =
          cellAt gd.grid row.toNat col.toNat := by
        have hgrowlen : gridRow.length = 9 := by
          rw [hgrval, ← getD_row_eq_get gd.grid row.toNat hltg]
          exact wf_row_length gd.grid hwfg row.toNat hrn
        rw [jsIndex_eq_some gridRow col h0c (by omega)]
        unfold cellAt
        rw [getD_row_eq_get gd.grid row.toNat hltg, ← hgrval,
          getD_eq_getElem_of_lt gridRow col.toNat none (by omega)]
        rfl
      have hlast : gd2.moveHistory.getLast? =
          some ⟨row, col, (jsIndex gridRow col).getD none, v, now⟩ := by
        rw [hhist2]
        exact List.getLast?_concat gd.moveHistory
      rw [undoMove_pop s2 gd2 _ hs2gd hlast]
      refine ⟨rfl, _, rfl, ?_, ?_⟩
      · show setCellI gd2.grid row col ((jsIndex gridRow col).getD none) = gd.grid
        rw [hgrid2, hprev]
        exact setCellI_restore gd.grid hwfg row col h0r hrn h0c hcn v
      · show gd2.moveHistory.dropLast = gd.moveHistory
        rw [hhist2]
        exact dropLast_concat_eq gd.moveHistory _
  · intro gd hgd
    rcases hlast : gd.moveHistory.getLast? with _ | mv
    · rw [undoMove_empty s gd hgd hlast]
      simp only [List.getLast?_eq_none_iff] at hlast
      exact ⟨fun _ => hlast, fun _ => rfl⟩
    · rw [undoMove_pop s gd mv hgd hlast]
      constructor
      · intro hcon
        cases hcon
      · intro hnil
        rw [hnil] at hlast
        cases hlast

/-- C4 witness: a concrete move on the sample session and its undo. -/
theorem claim_C4_undo_inverse_witness :
    makeMove msPlay 1 1 (some 3) 5 = Except.ok (msAfter, true) ∧
    ((undoMove msAfter).2 = true ∧
      ∃ gd2, (undoMove msAfter).1.gameData = some gd2 ∧
        gd2.grid = gd0.grid ∧ gd2.moveHistory = gd0.moveHistory) ∧
    ((undoMove msPlay).2 = false ↔ gd0.moveHistory = []) := by
  refine ⟨by rfl, ?_, (claim_C4_undo_inverse msPlay).2 gd0 rfl⟩
  exact (claim_C4_undo_inverse msPlay).1 gd0 1 1 (some 3) 5 msAfter rfl
    (by decide) (by decide) (by rfl)

theorem pauseGame_gameData (s : ManagerState) (now : Nat) :
    (pauseGame s now).gameData = s.gameData := by
  unfold pauseGame
  split
  · rfl
  · rfl

theorem resumeGame_gameData (s : ManagerState) (now : Nat) :
    (resumeGame s now).gameData = s.gameData := by
  simp only [resumeGame]
  split
  · split
    · rfl
    · rfl
  · rfl

theorem pauseGame_paused_state (s : ManagerState) (now : Nat)
    (h : s.gameState = GameState.playing) :
    (pauseGame s now).gameState = GameState.paused := by
  unfold pauseGame
  rw [if_pos h]

theorem resumeGame_paused_state (s : ManagerState) (now : Nat)
    (h : s.gameState = GameState.paused) :
    (resumeGame s now).gameState = GameState.playing := by
  simp only [resumeGame]
  rw [if_pos h]
  split
  · rfl
  · rfl

theorem step_preserves_original {s t : ManagerState} (h : SessionStep s t) :
    originalGridOf t = originalGridOf s := by
  cases h with
  | move =>
    rename_i row col v now b hmk
    rcases makeMove_ok_inv s row col v now t b hmk with ⟨heq, _⟩ |
      ⟨_, gd, _, _, hgd, _, _, _, _, gd2, hs2gd, _, horig, _, _⟩
    · rw [heq]
    · unfold originalGridOf
      rw [hs2gd, hgd]
      simp [horig]
  | undo =>
    rcases hgd : s.gameData with _ | gd
    · rw [undoMove_no_session s hgd]
    · rcases hlast : gd.moveHistory.getLast? with _ | mv
      · rw [undoMove_empty s gd hgd hlast]
      · rw [undoMove_pop s gd mv hgd hlast]
        unfold originalGridOf
        rw [hgd]
        rfl
  | pause now =>
    unfold originalGridOf
    rw [pauseGame_gameData]
  | resume now =>
    unfold originalGridOf
    rw [resumeGame_gameData]
  | hint pick => rfl
  | validate => rfl

/-- C8: over any sequence of session operations after creation (makeMove,
undoMove, pauseGame, resumeGame, getHint, validateGame) the original grid
is never changed; dispose replaces the session data with nothing. -/
theorem claim_C8_original_immutable (s t : ManagerState)
    (h : SessionReach s t) :
    originalGridOf t = originalGridOf s ∧ (dispose t).gameData = none := by
  induction h with
  | refl => exact ⟨rfl, rfl⟩
  | tail hreach hstep ih =>
    exact ⟨(step_preserves_original hstep).trans ih.1, rfl⟩

/-- C8 witness: a concrete two-step session trace. -/
theorem claim_C8_original_immutable_witness :
    originalGridOf (pauseGame msPlay 9) = originalGridOf msPlay ∧
      (dispose (pauseGame msPlay 9)).gameData = none :=
  claim_C8_original_immutable msPlay (pauseGame msPlay 9)
    (SessionReach.tail (SessionReach.refl msPlay) (SessionStep.pause msPlay 9))

/-- C9: pauseGame moves playing to paused and is a no-op otherwise;
resumeGame moves paused to playing and is a no-op otherwise; neither
touches the game data (grid and move history); pause then resume from
playing lands back in playing. -/
theorem claim_C9_pause_resume (s : ManagerState) (now t1 t2 : Nat) :
    (s.gameState ≠ GameState.playing → pauseGame s now = s) ∧
    (s.gameState = GameState.playing →
      (pauseGame s now).gameState = GameState.paused ∧
      (pauseGame s now).gameData = s.gameData) ∧
    (s.gameState ≠ GameState.paused → resumeGame s now = s) ∧
    (s.gameState = GameState.paused →
      (resumeGame s now).gameState = GameState.playing ∧
      (resumeGame s now).gameData = s.gameData) ∧
    (s.gameState = GameState.playing →
      (resumeGame (pauseGame s t1) t2).gameState = GameState.playing) := by
  refine ⟨?_, ?_, ?_, ?_, ?_⟩
  · intro h
    unfold pauseGame
    rw [if_neg h]
  · intro h
    exact ⟨pauseGame_paused_state s now h, pauseGame_gameData s now⟩
  · intro h
    unfold resumeGame
    rw [if_neg h]
  · intro h
    exact ⟨resumeGame_paused_state s now h, resumeGame_gameData s now⟩
  · intro h
    exact resumeGame_paused_state (pauseGame s t1) t2
      (pauseGame_paused_state s t1 h)

/-- C9 witness: the transitions at the concrete playing session. -/
theorem claim_C9_pause_resume_witness :
    (pauseGame msPlay 9).gameState = GameState.paused ∧
    (pauseGame msPlay 9).gameData = msPlay.gameData ∧
    (resumeGame (pauseGame msPlay 9) 11).gameState = GameState.playing ∧
    resumeGame msPlay 11 = msPlay :=
  ⟨((claim_C9_pause_resume msPlay 9 9 11).2.1 rfl).1,
   ((claim_C9_pause_resume msPlay 9 9 11).2.1 rfl).2,
   (claim_C9_pause_resume msPlay 9 9 11).2.2.2.2 rfl,
   (claim_C9_pause_resume msPlay 11 9 11).2.2.1 (by decide)⟩

/-- C10 (implicit): undoMove succeeds whenever a session exists and the
history is non-empty, independently of the session state, which it never
changes; it pops the last move and writes its previous value back at the
recorded position; it fails exactly when there is no session or the
history is empty. -/
theorem claim_C10_undo_state_independent (s : ManagerState) :
    (∀ gd mv, s.gameData = some gd → gd.moveHistory.getLast? = some mv →
      (undoMove s).2 = true ∧
      (undoMove s).1.gameState = s.gameState ∧
      ∃ gd2, (undoMove s).1.gameData = some gd2 ∧
        gd2.moveHistory = gd.moveHistory.dropLast ∧
        gd2.grid = setCellI gd.grid mv.row mv.col mv.previousValue ∧
        (WFshape gd.grid → 0 ≤ mv.row → mv.row.toNat < 9 →
          0 ≤ mv.col → mv.col.toNat < 9 →
          cellAt gd2.grid mv.row.toNat mv.col.toNat = mv.previousValue ∧
          ∀ i j, ¬(i = mv.row.toNat ∧ j = mv.col.toNat) →
            cellAt gd2.grid i j = cellAt gd.grid i j)) ∧
    ((s.gameData = none ∨ ∃ gd, s.gameData = some gd ∧ gd.moveHistory = []) →
      undoMove s = (s, false)) := by
  constructor
  · intro gd mv hgd hlast
    rw [undoMove_pop s gd mv hgd hlast]
    refine ⟨rfl, rfl, _, rfl, rfl, rfl, ?_⟩
    intro hwf h0r hrn h0c hcn
    have hset : setCellI gd.grid mv.row mv.col mv.previousValue =
        setCell gd.grid mv.row.toNat mv.col.toNat mv.previousValue := by
      unfold setCellI
      rw [if_pos ⟨h0r, h0c⟩]
    constructor
    · show cellAt (setCellI gd.grid mv.row mv.col mv.previousValue)
        mv.row.toNat mv.col.toNat = mv.previousValue
      rw [hset]
      apply cellAt_setCell_self
      · have := hwf.1; omega
      · rw [wf_row_length gd.grid hwf mv.row.toNat hrn]; omega
    · intro i j hij
      show cellAt (setCellI gd.grid mv.row mv.col mv.previousValue) i j =
        cellAt gd.grid i j
      rw [hset]
      exact cellAt_setCell_other gd.grid mv.row.toNat mv.col.toNat _ i j hij
  · intro h
    rcases h with h | ⟨gd, hgd, hnil⟩
    · exact undoMove_no_session s h
    · exact undoMove_empty s gd hgd (by rw [hnil]; rfl)

/-- C10 witness: undo succeeds on a paused session with history and fails
on the fresh session with empty history. -/
theorem claim_C10_undo_witness :
    (undoMove msPausedHist).2 = true ∧
    (undoMove msPausedHist).1.gameState = GameState.paused ∧
    undoMove msPlay = (msPlay, false) :=
  ⟨((claim_C10_undo_state_independent msPausedHist).1 gd1after mvSample rfl rfl).1,
   ((claim_C10_undo_state_independent msPausedHist).1 gd1after mvSample rfl rfl).2.1.trans rfl,
   (claim_C10_undo_state_independent msPlay).2 (Or.inr ⟨gd0, rfl, rfl⟩)⟩
